import Mathlib

/-!
Verification development for the dial-value aggregation pipeline of the
wtf dial-tracking service, and for its HTTP error-code mapping.

The SQLite-backed pipeline (functions refreshDialValue, insertDialValue,
publishDialEvent of the sqlite package) is shallowly embedded: the three
relational tables dials, dial_memberships and dial_values become lists of
records in a DB value, each SQL statement becomes the corresponding pure
list operation, and a fallible storage call becomes an Except value driven
by an explicit fault oracle so that storage-failure behaviour can be
stated.  Timestamps are naturals counting nanoseconds, matching the
resolution of the Go time package used by the source.
-/

namespace Wtf

/-- A row of the dials table: id, user_id, name, value, invite_code,
created_at, updated_at. -/
structure Dial where
  id : Nat
  userID : Nat
  name : String
  value : Int
  inviteCode : String
  createdAt : Nat
  updatedAt : Nat
  deriving Repr, DecidableEq

/-- A row of the dial_memberships table: dial_id, user_id and the
per-user value contributed to the dial aggregate. -/
structure DialMembership where
  dialID : Nat
  userID : Nat
  value : Int
  deriving Repr, DecidableEq

/-- A row of the dial_values history table: dial_id, timestamp (minute
bucket) and the aggregate value sampled at that bucket. -/
structure DialValue where
  dialID : Nat
  timestamp : Nat
  value : Int
  deriving Repr, DecidableEq

/-- Modelled from the spec: the event-type tag of the value-changed
notification (the EventTypeDialValueChanged constant of the wtf package is
outside the provided sources; only its identity matters here). -/
def EventTypeDialValueChanged : String := "dial:value_changed"

/-- The DialValueChangedPayload carried by a value-changed event: the dial
identifier and its new aggregate value. -/
structure DialValueChangedPayload where
  id : Nat
  value : Int
  deriving Repr, DecidableEq

/-- An Event as published to members: a type tag plus the value-changed
payload used by this pipeline. -/
structure Event where
  type : String
  payload : DialValueChangedPayload
  deriving Repr, DecidableEq

/-- An event delivered to the external publisher, addressed to one user:
the pair passed to EventService.PublishEvent(userID, event). -/
structure PublishedEvent where
  userID : Nat
  event : Event
  deriving Repr, DecidableEq

/-- The relational state visible to the pipeline: the three tables it
touches. -/
structure DB where
  dials : List Dial
  memberships : List DialMembership
  dialValues : List DialValue
  deriving Repr, DecidableEq

/-- A transaction handle: the database plus the logical timestamp tx.now.
Modelled from the spec: the Tx type itself is outside the provided
sources; per the spec the timestamp is an ambient value fixed once for the
lifetime of the transactional scope, which is why it is a plain field
rather than a clock read. -/
structure Tx where
  db : DB
  now : Nat
  deriving Repr, DecidableEq

/-- Errors surfaced by the pipeline: a low-level storage error as returned
by FormatError, possibly wrapped with operation context by fmt.Errorf. -/
inductive WErr where
  | storage : WErr
  | wrapped : String → WErr → WErr
  deriving Repr, DecidableEq

/-- The root cause of a possibly wrapped error (what errors.Unwrap reaches). -/
def WErr.root : WErr → WErr
  | .storage => .storage
  | .wrapped _ e => e.root

/-- Fault oracle for the storage collaborator: one flag per fallible
storage call of the pipeline, true meaning that call fails.  loadErr is a
failure of the SELECT value load other than sql.ErrNoRows; avgErr of the
aggregate SELECT; updateErr of the UPDATE dials exec; insertErr of the
INSERT INTO dial_values exec; membersErr of the SELECT user_id membership
enumeration inside publishDialEvent. -/
structure Faults where
  loadErr : Bool
  avgErr : Bool
  updateErr : Bool
  insertErr : Bool
  membersErr : Bool
  deriving Repr, DecidableEq

/-- The fault-free storage collaborator. -/
def noFaults : Faults := ⟨false, false, false, false, false⟩

/-- Nanoseconds per minute: the bucket width 1 * time.Minute used by
insertDialValue. -/
def nsPerMinute : Nat := 60000000000

/-- timestamp.Truncate(1 * time.Minute): round the timestamp down to the
preceding minute boundary. -/
def truncMinute (t : Nat) : Nat := t / nsPerMinute * nsPerMinute

/-- The per-user values of the current memberships of a dial, in table
order: the value column of dial_memberships rows WHERE dial_id = id. -/
def memberValues (db : DB) (id : Nat) : List Int :=
  (db.memberships.filter (fun m => m.dialID == id)).map (fun m => m.value)

/-- CAST(ROUND(IFNULL(AVG(value), 0)) AS INTEGER) over a list of values:
the empty aggregate is 0; otherwise the exact rational mean sum/length is
rounded to the nearest integer with ties away from zero (SQLite ROUND
semantics), computed here by the integer formula
(2 * natAbs sum + length) / (2 * length) with the sign reattached.
Theorem roundedAvg_eq_specMeanRound proves this formula equal to the
rational rounding of the mean. -/
def roundedAvg (vals : List Int) : Int :=
  if vals.length = 0 then 0
  else
    let s := vals.sum
    let q : Nat := (2 * s.natAbs + vals.length) / (2 * vals.length)
    if 0 ≤ s then (q : Int) else -(q : Int)

/-- The new aggregate computed by refreshDialValue for a dial: the rounded
average of the values of its current memberships. -/
def dialAvgValue (db : DB) (id : Nat) : Int :=
  roundedAvg (memberValues db id)

/-- SELECT value FROM dials WHERE id = ? scanned through QueryRow: the
value of the first dial row with the given id, none when sql.ErrNoRows. -/
def loadDialValue (db : DB) (id : Nat) : Option Int :=
  (db.dials.find? (fun d => d.id == id)).map (fun d => d.value)

/-- UPDATE dials SET value = ?, updated_at = ? WHERE id = ?: every dial
row with the given id gets the new value and the transaction timestamp. -/
def updateDialRow (db : DB) (id : Nat) (v : Int) (now : Nat) : DB :=
  { db with dials := db.dials.map (fun d =>
      if d.id == id then { d with value := v, updatedAt := now } else d) }

/-- Whether a history row carries the given (dial_id, timestamp) key: the
conflict target of the dial_values upsert. -/
def sampleKey (id ts : Nat) (s : DialValue) : Bool :=
  s.dialID == id && s.timestamp == ts

/-- INSERT INTO dial_values ... ON CONFLICT (dial_id, "timestamp") DO
UPDATE SET value = ?: when a row with the key already exists its value is
overwritten, otherwise a new row is appended. -/
def upsertSample (l : List DialValue) (id ts : Nat) (v : Int) : List DialValue :=
  if l.any (sampleKey id ts) then
    l.map (fun s => if sampleKey id ts s then { s with value := v } else s)
  else
    l ++ [⟨id, ts, v⟩]

/-- insertDialValue: record a dial value at a point in time, reducing the
precision to one sample per minute and upserting on the (dial_id,
timestamp) key.  The insertErr fault models a failing exec. -/
def insertDialValue (f : Faults) (db : DB) (id : Nat) (value : Int)
    (timestamp : Nat) : Except WErr DB :=
  if f.insertErr then .error .storage
  else .ok { db with
    dialValues := upsertSample db.dialValues id (truncMinute timestamp) value }

/-- publishDialEvent: enumerate user_id of every dial_memberships row of
the dial and publish the event to each in row order, fire-and-forget.  The
membersErr fault models a failing membership SELECT; the publish call
itself returns nothing and cannot fail. -/
def publishDialEvent (f : Faults) (db : DB) (id : Nat) (event : Event) :
    Except WErr (List PublishedEvent) :=
  if f.membersErr then .error .storage
  else .ok ((db.memberships.filter (fun m => m.dialID == id)).map
      (fun m => ⟨m.userID, event⟩))

/-- refreshDialValue: recompute the WTF level of a dial by id.  Loads the
current value (absent dial is a silent no-op), computes the membership
average, stops when unchanged, otherwise updates the dial row, records the
history sample at tx.now and publishes the change to all members.  Returns
the written database together with the published events. -/
def refreshDialValue (f : Faults) (tx : Tx) (id : Nat) :
    Except WErr (DB × List PublishedEvent) :=
  if f.loadErr then .error .storage
  else
    match loadDialValue tx.db id with
    | none => .ok (tx.db, [])
    | some oldValue =>
      if f.avgErr then .error .storage
      else if oldValue == dialAvgValue tx.db id then .ok (tx.db, [])
      else if f.updateErr then .error .storage
      else
        match insertDialValue f (updateDialRow tx.db id (dialAvgValue tx.db id) tx.now)
            id (dialAvgValue tx.db id) tx.now with
        | .error e => .error (.wrapped "insert historical value" e)
        | .ok db2 =>
          match publishDialEvent f db2 id
              ⟨EventTypeDialValueChanged, ⟨id, dialAvgValue tx.db id⟩⟩ with
          | .error e => .error (.wrapped "publish dial event" e)
          | .ok evs => .ok (db2, evs)

/-- Outcome of running one recompute inside its caller-owned transaction:
the committed database, the events that reached the publisher, and the
error surfaced to the caller, if any. -/
structure RunResult where
  db : DB
  events : List PublishedEvent
  err : Option WErr
  deriving Repr, DecidableEq

/-- Modelled from the spec: the transactional scope is owned by the
caller, which commits on success and rolls back on every error path; that
caller code is outside the provided sources.  So on success the written
database commits, and on error the committed state is the original
database with no events published (every fault point of the pipeline
precedes its first publish call). -/
def runRefresh (f : Faults) (tx : Tx) (id : Nat) : RunResult :=
  match refreshDialValue f tx id with
  | .ok (db, evs) => ⟨db, evs, none⟩
  | .error e => ⟨tx.db, [], some e⟩

/-- Written from the words of the spec, for comparison with roundedAvg:
round a rational to the nearest integer, resolving ties away from zero. -/
def ratRoundAwayFromZero (q : ℚ) : Int :=
  if 0 ≤ q then ⌊q + 1 / 2⌋ else ⌈q - 1 / 2⌉

/-- Written from the words of the spec, for comparison with roundedAvg:
the mean of the values rounded to the nearest integer with ties away from
zero, with an empty value set yielding 0. -/
def specMeanRound (vals : List Int) : Int :=
  if vals.length = 0 then 0
  else ratRoundAwayFromZero ((vals.sum : ℚ) / (vals.length : ℚ))

/-- The history samples stored for one (dial, minute-bucket) key. -/
def samplesAt (db : DB) (id ts : Nat) : List DialValue :=
  db.dialValues.filter (sampleKey id ts)

/-- The uniqueness constraint of the dial_values table: at most one sample
per (dial_id, timestamp) key. -/
def uniqSamples (db : DB) : Prop :=
  ∀ id ts, (samplesAt db id ts).length ≤ 1

/-- The database written by the changed branch of refreshDialValue: the
dial row updated to the new value at tx.now, and the history sample
upserted at the minute bucket of tx.now. -/
def changedDB (db : DB) (id : Nat) (nv : Int) (now : Nat) : DB :=
  { updateDialRow db id nv now with
      dialValues := upsertSample db.dialValues id (truncMinute now) nv }

/-- The fan-out of one event to every current member of a dial, in
membership-row order. -/
def fanout (db : DB) (id : Nat) (ev : Event) : List PublishedEvent :=
  (db.memberships.filter (fun m => m.dialID == id)).map (fun m => ⟨m.userID, ev⟩)

/-- A concrete database for witnesses: dial 1 stores value 0 while its two
memberships average to 15, so a recompute changes the value. -/
def exDB : DB :=
  ⟨[⟨1, 7, "team", 0, "invite", 0, 0⟩], [⟨1, 2, 10⟩, ⟨1, 3, 20⟩], []⟩

/-- A transaction over exDB whose timestamp 90 s is off the minute grid. -/
def exTx : Tx := ⟨exDB, 90000000000⟩

/-- The database exDB after its first recompute of dial 1: value 15,
updated at 90 s, one history sample in the 60 s bucket. -/
def exDB1 : DB :=
  ⟨[⟨1, 7, "team", 15, "invite", 0, 90000000000⟩],
   [⟨1, 2, 10⟩, ⟨1, 3, 20⟩],
   [⟨1, 60000000000, 15⟩]⟩

/-- The events of the first recompute of dial 1 over exDB: one per member. -/
def exEvents : List PublishedEvent :=
  [⟨2, ⟨EventTypeDialValueChanged, ⟨1, 15⟩⟩⟩, ⟨3, ⟨EventTypeDialValueChanged, ⟨1, 15⟩⟩⟩]

/-- A fault oracle failing only the membership enumeration of the
notification step. -/
def membersFault : Faults := ⟨false, false, false, false, true⟩

/-- A fault oracle failing only the initial value load. -/
def loadFault : Faults := ⟨true, false, false, false, false⟩

end Wtf

namespace WtfHttp

/-- Modelled from the spec: the application error-code constants of the
error taxonomy (the wtf error package is outside the provided sources);
the codes are opaque distinct strings. -/
def ECONFLICT : String := "conflict"

/-- Modelled from the spec: see ECONFLICT. -/
def EINTERNAL : String := "internal"

/-- Modelled from the spec: see ECONFLICT. -/
def EINVALID : String := "invalid"

/-- Modelled from the spec: see ECONFLICT. -/
def ENOTFOUND : String := "not_found"

/-- Modelled from the spec: see ECONFLICT. -/
def ENOTIMPLEMENTED : String := "not_implemented"

/-- Modelled from the spec: see ECONFLICT. -/
def EUNAUTHORIZED : String := "unauthorized"

/-- The lookup table of application error codes to HTTP status codes.  The
Go source holds it as a map; since both columns are duplicate-free the
association-list representation has the same lookup semantics in either
direction regardless of iteration order. -/
def codes : List (String × Nat) :=
  [(ECONFLICT, 409), (EINVALID, 400), (ENOTFOUND, 404),
   (ENOTIMPLEMENTED, 501), (EUNAUTHORIZED, 401), (EINTERNAL, 500)]

/-- ErrorStatusCode: the HTTP status for a WTF error code, 500 for a code
outside the table. -/
def ErrorStatusCode (code : String) : Nat :=
  match codes.find? (fun p => p.1 == code) with
  | some p => p.2
  | none => 500

/-- FromErrorStatusCode: the WTF code whose table entry carries the given
HTTP status, EINTERNAL when no entry does. -/
def FromErrorStatusCode (code : Nat) : String :=
  match codes.find? (fun p => p.2 == code) with
  | some p => p.1
  | none => EINTERNAL

end WtfHttp

namespace Wtf

section ListHelpers

variable {α : Type _}

/-- Mapping a predicate-preserving function commutes with find?. -/
lemma find?_map_pred (l : List α) (g : α → α) (p : α → Bool)
    (h : ∀ a, p (g a) = p a) : (l.map g).find? p = (l.find? p).map g := by
  induction l with
  | nil => rfl
  | cons a l ih =>
    by_cases hp : p a = true
    · simp [List.find?_cons, h, hp]
    · have hp' : p a = false := by simpa using hp
      simp [List.find?_cons, h, hp', ih]

/-- Mapping a predicate-preserving function commutes with filter. -/
lemma filter_map_pred (l : List α) (g : α → α) (p : α → Bool)
    (h : ∀ a, p (g a) = p a) : (l.map g).filter p = (l.filter p).map g := by
  induction l with
  | nil => rfl
  | cons a l ih =>
    by_cases hp : p a = true
    · simp [List.filter_cons, h, hp, ih]
    · have hp' : p a = false := by simpa using hp
      simp [List.filter_cons, h, hp', ih]

/-- A map that fixes every element satisfying the predicate leaves the
filtered sublist unchanged, provided it also preserves the predicate. -/
lemma filter_map_fix (l : List α) (g : α → α) (p : α → Bool)
    (h : ∀ a, p (g a) = p a) (hfix : ∀ a, p a = true → g a = a) :
    (l.map g).filter p = l.filter p := by
  rw [filter_map_pred l g p h]
  induction l with
  | nil => rfl
  | cons a l ih =>
    by_cases hp : p a = true
    · simp [List.filter_cons, hp, hfix a hp, ih]
    · have hp' : p a = false := by simpa using hp
      simp [List.filter_cons, hp', ih]

/-- A nonempty list of length at most one is a singleton. -/
lemma eq_singleton_of_ne_nil_of_length_le (l : List α) (hne : l ≠ [])
    (hlen : l.length ≤ 1) : ∃ a, l = [a] := by
  cases l with
  | nil => exact absurd rfl hne
  | cons a t =>
    cases t with
    | nil => exact ⟨a, rfl⟩
    | cons b t => simp at hlen

end ListHelpers

section Rounding

/-- The rational floor of a quotient of naturals is their natural-number
quotient. -/
lemma floor_natCast_div (m k : Nat) (hk : 0 < k) :
    ⌊(m : ℚ) / (k : ℚ)⌋ = ((m / k : Nat) : Int) := by
  have hk0 : (0 : ℚ) < k := by exact_mod_cast hk
  rw [Int.floor_eq_iff]
  constructor
  · rw [le_div_iff₀ hk0]
    exact_mod_cast Nat.div_mul_le_self m k
  · rw [div_lt_iff₀ hk0]
    have h := (Nat.div_lt_iff_lt_mul hk).mp (Nat.lt_succ_self (m / k))
    push_cast
    exact_mod_cast h

/-- Adding one half before flooring a natural quotient is the integer
formula (2 * a + n) / (2 * n). -/
lemma floor_add_half (a n : Nat) (hn : 0 < n) :
    ⌊(a : ℚ) / (n : ℚ) + 1 / 2⌋ = (((2 * a + n) / (2 * n) : Nat) : Int) := by
  have hn0 : (n : ℚ) ≠ 0 := Nat.cast_ne_zero.mpr hn.ne'
  have hq : (a : ℚ) / (n : ℚ) + 1 / 2 = ((2 * a + n : Nat) : ℚ) / ((2 * n : Nat) : ℚ) := by
    push_cast
    field_simp
    ring
  rw [hq, floor_natCast_div _ _ (by omega)]

/-- The mirror image of floor_add_half for the negative branch of the
away-from-zero rounding. -/
lemma ceil_sub_half (a n : Nat) (hn : 0 < n) :
    ⌈-(a : ℚ) / (n : ℚ) - 1 / 2⌉ = -(((2 * a + n) / (2 * n) : Nat) : Int) := by
  have h : -(a : ℚ) / (n : ℚ) - 1 / 2 = -((a : ℚ) / (n : ℚ) + 1 / 2) := by ring
  rw [h, Int.ceil_neg, floor_add_half a n hn]

/-- The signed natural-division formula agrees with rounding the rational
quotient half away from zero. -/
lemma roundFormula_eq (s : Int) (n : Nat) (hn : 0 < n) :
    (if 0 ≤ s then (((2 * s.natAbs + n) / (2 * n) : Nat) : Int)
     else -(((2 * s.natAbs + n) / (2 * n) : Nat) : Int)) =
    ratRoundAwayFromZero ((s : ℚ) / (n : ℚ)) := by
  unfold ratRoundAwayFromZero
  have hn0 : (0 : ℚ) < (n : ℚ) := by exact_mod_cast hn
  by_cases hs : 0 ≤ s
  · have hq : (0 : ℚ) ≤ (s : ℚ) / (n : ℚ) := by
      apply div_nonneg _ hn0.le
      exact_mod_cast hs
    have ha : ((s.natAbs : Nat) : ℚ) = ((s : Int) : ℚ) := by
      rw [Int.cast_natAbs]
      exact_mod_cast abs_of_nonneg hs
    rw [if_pos hs, if_pos hq, ← ha, floor_add_half _ _ hn]
  · have hs' : s < 0 := by omega
    have hq : ¬ (0 : ℚ) ≤ (s : ℚ) / (n : ℚ) := by
      rw [not_le]
      apply div_neg_of_neg_of_pos _ hn0
      exact_mod_cast hs'
    have h3 : ((s : Int) : ℚ) = -((s.natAbs : Nat) : ℚ) := by
      rw [Int.cast_natAbs, abs_of_nonpos hs'.le]
      push_cast
      ring
    rw [if_neg hs, if_neg hq, h3, ceil_sub_half _ _ hn]

/-- The integer formula used by roundedAvg agrees with rounding the exact
rational mean half away from zero. -/
lemma roundedAvg_eq_specMeanRound (vals : List Int) :
    roundedAvg vals = specMeanRound vals := by
  unfold roundedAvg specMeanRound
  by_cases h0 : vals.length = 0
  · simp [h0]
  · have hn : 0 < vals.length := Nat.pos_of_ne_zero h0
    simp only [h0, if_false]
    exact roundFormula_eq vals.sum vals.length hn

end Rounding

/-- C1: for every dial, the recompute step computes the new aggregate as
the mean of the per-user values of the dial's current memberships rounded
to the nearest integer with ties away from zero, and an empty membership
set yields aggregate 0 rather than an error. -/
theorem dial_aggregate_is_rounded_mean (db : DB) (id : Nat) :
    dialAvgValue db id = specMeanRound (memberValues db id) :=
  roundedAvg_eq_specMeanRound (memberValues db id)

end Wtf

namespace Wtf

section PipelineLemmas

/-- The changed branch leaves the membership table untouched. -/
lemma memberships_changedDB (db : DB) (id : Nat) (nv : Int) (now : Nat) :
    (changedDB db id nv now).memberships = db.memberships := rfl

/-- The aggregate depends only on memberships, so the changed branch does
not disturb it. -/
lemma dialAvgValue_changedDB (db : DB) (id : Nat) (nv : Int) (now : Nat) (i : Nat) :
    dialAvgValue (changedDB db id nv now) i = dialAvgValue db i := rfl

/-- The dial-row update preserves the row-selection predicate. -/
lemma updRow_pred (id : Nat) (nv : Int) (now : Nat) (d : Dial) :
    ((if d.id == id then { d with value := nv, updatedAt := now } else d).id == id)
      = (d.id == id) := by
  by_cases h : d.id = id <;> simp [h]

/-- Looking up the dial after the changed branch finds the updated row. -/
lemma find?_changedDB (db : DB) (id : Nat) (nv : Int) (now : Nat) (d0 : Dial)
    (hf : db.dials.find? (fun d => d.id == id) = some d0) :
    (changedDB db id nv now).dials.find? (fun d => d.id == id) =
      some { d0 with value := nv, updatedAt := now } := by
  have hmap := find?_map_pred db.dials
      (fun d => if d.id == id then { d with value := nv, updatedAt := now } else d)
      (fun d => d.id == id) (updRow_pred id nv now)
  have hchg : (changedDB db id nv now).dials =
      db.dials.map
        (fun d => if d.id == id then { d with value := nv, updatedAt := now } else d) := rfl
  rw [hchg, hmap, hf]
  have hp := List.find?_some hf
  simp only [] at hp
  have hid : d0.id = id := by simpa using hp
  simp [hid]

/-- Loading the dial value after the changed branch yields the new value. -/
lemma loadDialValue_changedDB (db : DB) (id : Nat) (nv : Int) (now : Nat) (v : Int)
    (h : loadDialValue db id = some v) :
    loadDialValue (changedDB db id nv now) id = some nv := by
  unfold loadDialValue at h ⊢
  rcases hf : db.dials.find? (fun d => d.id == id) with _ | d0
  · rw [hf] at h
    simp at h
  · rw [find?_changedDB db id nv now d0 hf]
    rfl

/-- Characterization of refreshDialValue when the dial row is absent. -/
lemma refresh_of_notFound (f : Faults) (tx : Tx) (id : Nat)
    (hf : f.loadErr = false) (h : loadDialValue tx.db id = none) :
    refreshDialValue f tx id = .ok (tx.db, []) := by
  unfold refreshDialValue
  rw [hf, h]
  simp

/-- Characterization of refreshDialValue when the aggregate is unchanged. -/
lemma refresh_of_noChange (f : Faults) (tx : Tx) (id : Nat) (v : Int)
    (hf : f.loadErr = false) (hg : f.avgErr = false)
    (h : loadDialValue tx.db id = some v) (he : dialAvgValue tx.db id = v) :
    refreshDialValue f tx id = .ok (tx.db, []) := by
  unfold refreshDialValue
  rw [hf, h, hg]
  simp [he]

/-- Characterization of refreshDialValue on the fault-free changed path:
the dial row is updated at tx.now, the history sample is upserted at the
minute bucket of tx.now, and the event fans out to every member. -/
lemma refresh_of_changed (f : Faults) (tx : Tx) (id : Nat) (v : Int)
    (hf1 : f.loadErr = false) (hf2 : f.avgErr = false) (hf3 : f.updateErr = false)
    (hf4 : f.insertErr = false) (hf5 : f.membersErr = false)
    (h : loadDialValue tx.db id = some v) (hne : v ≠ dialAvgValue tx.db id) :
    refreshDialValue f tx id =
      .ok (changedDB tx.db id (dialAvgValue tx.db id) tx.now,
           fanout tx.db id ⟨EventTypeDialValueChanged, ⟨id, dialAvgValue tx.db id⟩⟩) := by
  unfold refreshDialValue
  rw [hf1, h]
  simp only [Bool.false_eq_true, if_false, hf2]
  rw [if_neg (by simpa using hne)]
  simp [hf3, hf4, hf5, insertDialValue, publishDialEvent, changedDB, fanout, updateDialRow]

end PipelineLemmas

end Wtf

namespace Wtf

section CaseAnalysis

/-- Every database a successful refresh can return is either the original
one or the one written by the changed branch. -/
lemma refresh_ok_db_cases (f : Faults) (tx : Tx) (id : Nat) (db' : DB)
    (evs : List PublishedEvent) (h : refreshDialValue f tx id = .ok (db', evs)) :
    db' = tx.db ∨ db' = changedDB tx.db id (dialAvgValue tx.db id) tx.now := by
  unfold refreshDialValue at h
  split at h
  · exact absurd h (by simp)
  · split at h
    · left
      injection h with h'
      injection h' with h1 h2
      exact h1.symm
    · split at h
      · exact absurd h (by simp)
      · split at h
        · left
          injection h with h'
          injection h' with h1 h2
          exact h1.symm
        · split at h
          · exact absurd h (by simp)
          · split at h
            · exact absurd h (by simp)
            · split at h
              · exact absurd h (by simp)
              · right
                rename_i oldValue hload hne hins db2 hinsert hpub evs2 hpubeq
                injection h with h'
                injection h' with h1 h2
                subst h1
                unfold insertDialValue at hinsert
                split at hinsert
                · exact absurd hinsert (by simp)
                · injection hinsert with h3
                  rw [← h3]
                  rfl

/-- Every error a refresh can surface has a storage-error root. -/
lemma refresh_error_root (f : Faults) (tx : Tx) (id : Nat) (e : WErr)
    (h : refreshDialValue f tx id = .error e) : e.root = .storage := by
  unfold refreshDialValue at h
  split at h
  · injection h with h'
    rw [← h']
    rfl
  · split at h
    · exact absurd h (by simp)
    · split at h
      · injection h with h'
        rw [← h']
        rfl
      · split at h
        · exact absurd h (by simp)
        · split at h
          · injection h with h'
            rw [← h']
            rfl
          · split at h
            · rename_i oldValue hload hne hnoupd e2 hinsert
              injection h with h'
              rw [← h']
              unfold insertDialValue at hinsert
              split at hinsert
              · injection hinsert with h3
                rw [← h3]
                rfl
              · exact absurd hinsert (by simp)
            · split at h
              · rename_i oldValue hload hne hnoupd db2 hinsert e2 hpub
                injection h with h'
                rw [← h']
                unfold publishDialEvent at hpub
                split at hpub
                · injection hpub with h3
                  rw [← h3]
                  rfl
                · exact absurd hpub (by simp)
              · exact absurd h (by simp)

end CaseAnalysis

end Wtf

namespace Wtf

section UpsertLemmas

/-- The value overwrite of the upsert preserves the conflict key. -/
lemma sampleKey_overwrite (id ts id2 ts2 : Nat) (v : Int) (s : DialValue) :
    sampleKey id2 ts2 (if sampleKey id ts s then { s with value := v } else s)
      = sampleKey id2 ts2 s := by
  cases hsk : sampleKey id ts s
  · simp [hsk]
  · rfl

/-- Under the uniqueness constraint, an upsert leaves exactly the one
fresh sample under its conflict key. -/
lemma upsert_filter_key (l : List DialValue) (id ts : Nat) (v : Int)
    (hlen : (l.filter (sampleKey id ts)).length ≤ 1) :
    (upsertSample l id ts v).filter (sampleKey id ts) = [⟨id, ts, v⟩] := by
  unfold upsertSample
  by_cases hany : l.any (sampleKey id ts)
  · rw [if_pos hany]
    rw [filter_map_pred l _ _ (sampleKey_overwrite id ts id ts v)]
    obtain ⟨a, ha, hpa⟩ := List.any_eq_true.mp hany
    have hmem : a ∈ l.filter (sampleKey id ts) := List.mem_filter.mpr ⟨ha, hpa⟩
    have hne : l.filter (sampleKey id ts) ≠ [] := by
      intro hnil
      rw [hnil] at hmem
      exact absurd hmem (List.not_mem_nil a)
    obtain ⟨a0, ha0⟩ := eq_singleton_of_ne_nil_of_length_le _ hne hlen
    have hpa0 : sampleKey id ts a0 = true := by
      have : a0 ∈ l.filter (sampleKey id ts) := by
        rw [ha0]
        exact List.mem_singleton_self a0
      exact (List.mem_filter.mp this).2
    have hid : a0.dialID = id ∧ a0.timestamp = ts := by
      unfold sampleKey at hpa0
      simp only [Bool.and_eq_true, beq_iff_eq] at hpa0
      exact hpa0
    rw [ha0]
    simp [hpa0, hid.1, hid.2]
  · rw [if_neg hany]
    have hnil : l.filter (sampleKey id ts) = [] := by
      rw [List.filter_eq_nil_iff]
      intro a ha
      intro hpa
      exact hany (List.any_eq_true.mpr ⟨a, ha, hpa⟩)
    rw [List.filter_append, hnil]
    simp [sampleKey]

/-- An upsert does not disturb the samples stored under any other key. -/
lemma upsert_filter_other (l : List DialValue) (id ts id2 ts2 : Nat) (v : Int)
    (hne : ¬ (id2 = id ∧ ts2 = ts)) :
    (upsertSample l id ts v).filter (sampleKey id2 ts2) = l.filter (sampleKey id2 ts2) := by
  unfold upsertSample
  by_cases hany : l.any (sampleKey id ts)
  · rw [if_pos hany]
    apply filter_map_fix
    · exact fun s => sampleKey_overwrite id ts id2 ts2 v s
    · intro a hpa
      have hkey : sampleKey id ts a = false := by
        apply Bool.eq_false_iff.mpr
        intro hk
        unfold sampleKey at hpa hk
        simp only [Bool.and_eq_true, beq_iff_eq] at hpa hk
        exact hne ⟨by omega, by omega⟩
      rw [hkey]
      simp
  · rw [if_neg hany, List.filter_append]
    have hx : sampleKey id2 ts2 (⟨id, ts, v⟩ : DialValue) = false := by
      apply Bool.eq_false_iff.mpr
      show ¬ ((id == id2 && ts == ts2) = true)
      simp only [Bool.and_eq_true, beq_iff_eq]
      intro hc
      exact hne ⟨hc.1.symm, hc.2.symm⟩
    simp [hx]

/-- An upsert preserves the at-most-one-sample-per-key constraint. -/
lemma uniq_upsert (db : DB) (id ts : Nat) (v : Int) (hu : uniqSamples db) :
    uniqSamples { db with dialValues := upsertSample db.dialValues id ts v } := by
  intro id2 ts2
  unfold samplesAt
  by_cases hk : id2 = id ∧ ts2 = ts
  · rw [hk.1, hk.2]
    rw [upsert_filter_key db.dialValues id ts v (hu id ts)]
    simp
  · rw [upsert_filter_other db.dialValues id ts id2 ts2 v hk]
    exact hu id2 ts2

end UpsertLemmas

end Wtf

namespace Wtf

section RunHelpers

/-- A successful refresh commits its written database and events. -/
lemma run_of_ok (f : Faults) (tx : Tx) (id : Nat) (db' : DB)
    (evs : List PublishedEvent) (h : refreshDialValue f tx id = .ok (db', evs)) :
    runRefresh f tx id = ⟨db', evs, none⟩ := by
  unfold runRefresh
  rw [h]

/-- A failed refresh rolls the transaction back and surfaces the error. -/
lemma run_of_error (f : Faults) (tx : Tx) (id : Nat) (e : WErr)
    (h : refreshDialValue f tx id = .error e) :
    runRefresh f tx id = ⟨tx.db, [], some e⟩ := by
  unfold runRefresh
  rw [h]

end RunHelpers

/-- C3: invoking recompute on a dial identifier that has no dial row
returns success and performs no side effects: no dial-row write, no
history sample, no notification. -/
theorem recompute_missing_dial_noop (f : Faults) (tx : Tx) (id : Nat)
    (hf : f.loadErr = false) (h : loadDialValue tx.db id = none) :
    runRefresh f tx id = ⟨tx.db, [], none⟩ :=
  run_of_ok f tx id tx.db [] (refresh_of_notFound f tx id hf h)

/-- Witness for C3: recomputing the absent dial 5 of exDB is a silent
no-op. -/
theorem recompute_missing_dial_noop_witness :
    runRefresh noFaults exTx 5 = ⟨exTx.db, [], none⟩ :=
  recompute_missing_dial_noop noFaults exTx 5 rfl rfl

/-- C2: recompute is idempotent: when the recomputed aggregate equals the
stored value nothing is written and nothing is published, and a second
recompute right after a successful one performs zero writes and zero
notifications. -/
theorem recompute_idempotent (tx : Tx) (id : Nat) (v : Int) (db1 : DB)
    (evs : List PublishedEvent) (now2 : Nat) :
    (loadDialValue tx.db id = some v → dialAvgValue tx.db id = v →
      runRefresh noFaults tx id = ⟨tx.db, [], none⟩) ∧
    (refreshDialValue noFaults tx id = .ok (db1, evs) →
      runRefresh noFaults ⟨db1, now2⟩ id = ⟨db1, [], none⟩) := by
  constructor
  · intro h he
    exact run_of_ok _ _ _ _ _ (refresh_of_noChange noFaults tx id v rfl rfl h he)
  · intro h
    rcases hl : loadDialValue tx.db id with _ | v0
    · rw [refresh_of_notFound noFaults tx id rfl hl] at h
      injection h with h'
      injection h' with ha hb
      subst ha
      exact run_of_ok _ _ _ _ _ (refresh_of_notFound noFaults ⟨tx.db, now2⟩ id rfl hl)
    · by_cases he : dialAvgValue tx.db id = v0
      · rw [refresh_of_noChange noFaults tx id v0 rfl rfl hl he] at h
        injection h with h'
        injection h' with ha hb
        subst ha
        exact run_of_ok _ _ _ _ _
          (refresh_of_noChange noFaults ⟨tx.db, now2⟩ id v0 rfl rfl hl he)
      · rw [refresh_of_changed noFaults tx id v0 rfl rfl rfl rfl rfl hl
            (fun hx => he hx.symm)] at h
        injection h with h'
        injection h' with ha hb
        subst ha
        apply run_of_ok
        apply refresh_of_noChange noFaults _ id (dialAvgValue tx.db id) rfl rfl
        · exact loadDialValue_changedDB tx.db id (dialAvgValue tx.db id) tx.now v0 hl
        · exact dialAvgValue_changedDB tx.db id (dialAvgValue tx.db id) tx.now id

/-- Witness for C2: on exDB1 (already recomputed) a recompute is a no-op,
and the recompute following the first recompute of exDB writes and
notifies nothing. -/
theorem recompute_idempotent_witness :
    runRefresh noFaults ⟨exDB1, 0⟩ 1 = ⟨exDB1, [], none⟩ ∧
    runRefresh noFaults ⟨exDB1, 5⟩ 1 = ⟨exDB1, [], none⟩ :=
  ⟨(recompute_idempotent ⟨exDB1, 0⟩ 1 15 exDB1 [] 0).1 rfl rfl,
   (recompute_idempotent exTx 1 0 exDB1 exEvents 5).2 rfl⟩

/-- C5: fan-out completeness: a value-changing recompute publishes exactly
one value-changed event per current membership of the dial, addressed to
that member's user identifier and carrying the dial identifier and the new
value; an unchanged recompute publishes zero events. -/
theorem recompute_fanout (tx : Tx) (id : Nat) (v : Int)
    (h : loadDialValue tx.db id = some v) :
    (v ≠ dialAvgValue tx.db id →
      runRefresh noFaults tx id =
        ⟨changedDB tx.db id (dialAvgValue tx.db id) tx.now,
         fanout tx.db id ⟨EventTypeDialValueChanged, ⟨id, dialAvgValue tx.db id⟩⟩,
         none⟩) ∧
    (v = dialAvgValue tx.db id → runRefresh noFaults tx id = ⟨tx.db, [], none⟩) := by
  constructor
  · intro hne
    exact run_of_ok _ _ _ _ _
      (refresh_of_changed noFaults tx id v rfl rfl rfl rfl rfl h hne)
  · intro he
    exact run_of_ok _ _ _ _ _ (refresh_of_noChange noFaults tx id v rfl rfl h he.symm)

/-- Witness for C5: the value-changing recompute of exDB notifies both
members once, and the recompute of the settled exDB1 notifies nobody. -/
theorem recompute_fanout_witness :
    runRefresh noFaults exTx 1 =
      ⟨changedDB exTx.db 1 (dialAvgValue exTx.db 1) exTx.now,
       fanout exTx.db 1 ⟨EventTypeDialValueChanged, ⟨1, dialAvgValue exTx.db 1⟩⟩,
       none⟩ ∧
    runRefresh noFaults ⟨exDB1, 0⟩ 1 = ⟨exDB1, [], none⟩ :=
  ⟨(recompute_fanout exTx 1 0 rfl).1 (by decide),
   (recompute_fanout ⟨exDB1, 0⟩ 1 15 rfl).2 (by decide)⟩

end Wtf

namespace Wtf

/-- C4: the history store keeps at most one sample per (dial, one-minute
bucket): insertDialValue truncates the timestamp to the preceding minute
boundary, and a second recording in the same bucket overwrites the
existing sample instead of inserting a duplicate, leaving exactly one
sample carrying the later value. -/
theorem history_one_sample_per_bucket (db db1 db2 : DB) (id : Nat)
    (v1 v2 : Int) (t1 t2 : Nat) (hu : uniqSamples db)
    (hb : truncMinute t1 = truncMinute t2)
    (h1 : insertDialValue noFaults db id v1 t1 = .ok db1)
    (h2 : insertDialValue noFaults db1 id v2 t2 = .ok db2) :
    samplesAt db2 id (truncMinute t1) = [⟨id, truncMinute t1, v2⟩] ∧
    uniqSamples db2 := by
  unfold insertDialValue at h1 h2
  simp only [noFaults, Bool.false_eq_true, if_false, Except.ok.injEq] at h1 h2
  subst h1
  rw [← hb] at h2
  subst h2
  constructor
  · unfold samplesAt
    apply upsert_filter_key
    have hfirst := upsert_filter_key db.dialValues id (truncMinute t1) v1 (hu id (truncMinute t1))
    show ((upsertSample db.dialValues id (truncMinute t1) v1).filter
        (sampleKey id (truncMinute t1))).length ≤ 1
    rw [hfirst]
    simp
  · apply uniq_upsert
    exact uniq_upsert db id (truncMinute t1) v1 hu

/-- Witness for C4: recording 5 then 7 for dial 1 at 30 s and 59 s leaves
exactly one sample in the minute-zero bucket, with value 7. -/
theorem history_one_sample_per_bucket_witness :
    samplesAt ⟨[], [], [⟨1, 0, 7⟩]⟩ 1 (truncMinute 30000000000) =
      [⟨1, truncMinute 30000000000, 7⟩] ∧
    uniqSamples ⟨[], [], [⟨1, 0, 7⟩]⟩ :=
  history_one_sample_per_bucket ⟨[], [], []⟩ ⟨[], [], [⟨1, 0, 5⟩]⟩
    ⟨[], [], [⟨1, 0, 7⟩]⟩ 1 5 7 30000000000 59000000000
    (fun i ts => by simp [samplesAt]) (by decide) rfl rfl

/-- The dial-row update leaves rows of every other dial untouched. -/
lemma updateDialRow_filter_other (db : DB) (id : Nat) (nv : Int) (now : Nat) :
    (updateDialRow db id nv now).dials.filter (fun d => !(d.id == id)) =
      db.dials.filter (fun d => !(d.id == id)) := by
  apply filter_map_fix
  · intro a
    exact congrArg (fun b => !b) (updRow_pred id nv now a)
  · intro a hpa
    have hid : (a.id == id) = false := by simpa using hpa
    simp [hid]

/-- The history upsert leaves samples of every other dial untouched. -/
lemma upsert_filter_not_dial (l : List DialValue) (id ts : Nat) (v : Int) :
    (upsertSample l id ts v).filter (fun s => !(s.dialID == id)) =
      l.filter (fun s => !(s.dialID == id)) := by
  unfold upsertSample
  by_cases hany : l.any (sampleKey id ts)
  · rw [if_pos hany]
    apply filter_map_fix
    · intro a
      cases hsk : sampleKey id ts a
      · simp [hsk]
      · rfl
    · intro a hpa
      have hid : (a.dialID == id) = false := by simpa using hpa
      have hk : sampleKey id ts a = false := by
        unfold sampleKey
        simp [hid]
      simp [hk]
  · rw [if_neg hany, List.filter_append]
    simp

/-- C9: frame property of the recompute pipeline: membership rows are
never written, and the only stored rows the pipeline may modify are the
dial's own row and that dial's history samples. -/
theorem recompute_frame (f : Faults) (tx : Tx) (id : Nat) :
    (runRefresh f tx id).db.memberships = tx.db.memberships ∧
    (runRefresh f tx id).db.dials.filter (fun d => !(d.id == id)) =
      tx.db.dials.filter (fun d => !(d.id == id)) ∧
    (runRefresh f tx id).db.dialValues.filter (fun s => !(s.dialID == id)) =
      tx.db.dialValues.filter (fun s => !(s.dialID == id)) := by
  rcases hres : refreshDialValue f tx id with e | ⟨db', evs⟩
  · rw [run_of_error f tx id e hres]
    exact ⟨rfl, rfl, rfl⟩
  · rw [run_of_ok f tx id db' evs hres]
    rcases refresh_ok_db_cases f tx id db' evs hres with h | h
    · subst h
      exact ⟨rfl, rfl, rfl⟩
    · subst h
      refine ⟨rfl, ?_, ?_⟩
      · exact updateDialRow_filter_other tx.db id (dialAvgValue tx.db id) tx.now
      · exact upsert_filter_not_dial tx.db.dialValues id (truncMinute tx.now)
          (dialAvgValue tx.db id)

end Wtf

namespace Wtf

/-- C7: atomicity of the recompute transaction: a storage failure in the
load, recompute, value-update or history-recording step surfaces a
storage-error kind to the caller and the committed dial value and history
remain unchanged; more generally every surfaced error has a storage root
and rolls the whole transaction back. -/
theorem recompute_storage_failure_atomic (f : Faults) (tx : Tx) (id : Nat)
    (e : WErr) (v : Int) :
    (refreshDialValue f tx id = .error e →
      e.root = .storage ∧ runRefresh f tx id = ⟨tx.db, [], some e⟩) ∧
    (f.loadErr = true → refreshDialValue f tx id = .error .storage) ∧
    (f.loadErr = false → f.avgErr = true → loadDialValue tx.db id = some v →
      refreshDialValue f tx id = .error .storage) ∧
    (f.loadErr = false → f.avgErr = false → f.updateErr = true →
      loadDialValue tx.db id = some v → v ≠ dialAvgValue tx.db id →
      refreshDialValue f tx id = .error .storage) ∧
    (f.loadErr = false → f.avgErr = false → f.updateErr = false → f.insertErr = true →
      loadDialValue tx.db id = some v → v ≠ dialAvgValue tx.db id →
      refreshDialValue f tx id = .error (.wrapped "insert historical value" .storage)) := by
  refine ⟨?_, ?_, ?_, ?_, ?_⟩
  · intro h
    exact ⟨refresh_error_root f tx id e h, run_of_error f tx id e h⟩
  · intro h1
    simp [refreshDialValue, h1]
  · intro h1 h2 h3
    simp [refreshDialValue, h1, h2, h3]
  · intro h1 h2 h3 h4 h5
    simp [refreshDialValue, h1, h2, h3, h4, h5]
  · intro h1 h2 h3 h4 h5 h6
    simp [refreshDialValue, insertDialValue, h1, h2, h3, h4, h5, h6]

/-- Witness for C7: each of the four fallible steps of exTx, failed in
isolation, surfaces a storage-rooted error and commits nothing. -/
theorem recompute_storage_failure_atomic_witness :
    (WErr.root .storage = .storage ∧
      runRefresh loadFault exTx 1 = ⟨exTx.db, [], some .storage⟩) ∧
    refreshDialValue loadFault exTx 1 = .error .storage ∧
    refreshDialValue ⟨false, true, false, false, false⟩ exTx 1 = .error .storage ∧
    refreshDialValue ⟨false, false, true, false, false⟩ exTx 1 = .error .storage ∧
    refreshDialValue ⟨false, false, false, true, false⟩ exTx 1 =
      .error (.wrapped "insert historical value" .storage) :=
  ⟨(recompute_storage_failure_atomic loadFault exTx 1 .storage 0).1 rfl,
   (recompute_storage_failure_atomic loadFault exTx 1 .storage 0).2.1 rfl,
   (recompute_storage_failure_atomic ⟨false, true, false, false, false⟩ exTx 1
      .storage 0).2.2.1 rfl rfl rfl,
   (recompute_storage_failure_atomic ⟨false, false, true, false, false⟩ exTx 1
      .storage 0).2.2.2.1 rfl rfl rfl rfl (by decide),
   (recompute_storage_failure_atomic ⟨false, false, false, true, false⟩ exTx 1
      .storage 0).2.2.2.2 rfl rfl rfl rfl rfl (by decide)⟩

/-- C6 counterexample: over exDB a storage failure inside the notification
step of a value-changing recompute is escalated to the caller as an error
(so it is distinguished from success), and the transaction rolls back the
dial-value update and the history sample of steps 4 and 5: the committed
database is the original one, not the updated one. -/
theorem notify_failure_not_best_effort :
    refreshDialValue membersFault exTx 1 =
      .error (.wrapped "publish dial event" .storage) ∧
    (runRefresh membersFault exTx 1).err ≠ none ∧
    (runRefresh membersFault exTx 1).db = exDB ∧
    (runRefresh noFaults exTx 1).db ≠ exDB := by
  refine ⟨rfl, by decide, by decide, by decide⟩

/-- C6 amended: the delivery call to the event publisher returns no error
and cannot fail, so a delivery failure is invisible at this layer and
never escalates; but a storage failure while enumerating the dial's
members inside the notification step is escalated into the transaction's
error path and rolls back the dial update and history sample of the same
recompute. -/
theorem notify_failure_scope (f : Faults) (tx : Tx) (db0 : DB) (id : Nat)
    (v : Int) (ev : Event) :
    (f.membersErr = false → publishDialEvent f db0 id ev = .ok (fanout db0 id ev)) ∧
    (f.membersErr = true → publishDialEvent f db0 id ev = .error .storage) ∧
    (f.loadErr = false → f.avgErr = false → f.updateErr = false → f.insertErr = false →
      f.membersErr = true → loadDialValue tx.db id = some v →
      v ≠ dialAvgValue tx.db id →
      runRefresh f tx id = ⟨tx.db, [], some (.wrapped "publish dial event" .storage)⟩) := by
  refine ⟨?_, ?_, ?_⟩
  · intro h
    simp [publishDialEvent, fanout, h]
  · intro h
    simp [publishDialEvent, h]
  · intro h1 h2 h3 h4 h5 h6 h7
    apply run_of_error
    simp [refreshDialValue, insertDialValue, publishDialEvent, h1, h2, h3, h4, h5, h6, h7]

/-- Witness for C6 amended: over exDB the fault-free publish succeeds with
the full fan-out, the faulted enumeration fails, and the faulted
value-changing recompute rolls back with a wrapped publish error. -/
theorem notify_failure_scope_witness :
    publishDialEvent noFaults exDB 1 ⟨EventTypeDialValueChanged, ⟨1, 15⟩⟩ =
      .ok (fanout exDB 1 ⟨EventTypeDialValueChanged, ⟨1, 15⟩⟩) ∧
    publishDialEvent membersFault exDB 1 ⟨EventTypeDialValueChanged, ⟨1, 15⟩⟩ =
      .error .storage ∧
    runRefresh membersFault exTx 1 =
      ⟨exTx.db, [], some (.wrapped "publish dial event" .storage)⟩ :=
  ⟨(notify_failure_scope noFaults exTx exDB 1 0 ⟨EventTypeDialValueChanged, ⟨1, 15⟩⟩).1 rfl,
   (notify_failure_scope membersFault exTx exDB 1 0 ⟨EventTypeDialValueChanged, ⟨1, 15⟩⟩).2.1 rfl,
   (notify_failure_scope membersFault exTx exDB 1 0 ⟨EventTypeDialValueChanged, ⟨1, 15⟩⟩).2.2
      rfl rfl rfl rfl rfl rfl (by decide)⟩

/-- C8 counterexample: for the recompute of exDB at tx.now = 90 s the
committed dial row carries updated_at 90 s while the history sample
carries the minute-truncated timestamp 60 s, so the dial-row timestamp and
the history-sample timestamp do not agree. -/
theorem dial_and_history_timestamps_differ :
    (runRefresh noFaults exTx 1).db.dials.map Dial.updatedAt = [90000000000] ∧
    (runRefresh noFaults exTx 1).db.dialValues.map DialValue.timestamp = [60000000000] ∧
    (90000000000 : Nat) ≠ 60000000000 := by
  refine ⟨by decide, by decide, by decide⟩

/-- C8 amended: one logical timestamp tx.now is captured once per
transaction and drives both writes: the dial row's updated-at field is set
to tx.now itself and the history sample is stored at the minute truncation
of tx.now, so the two timestamps agree up to minute truncation. -/
theorem single_timestamp_per_transaction (tx : Tx) (id : Nat) (v : Int)
    (hu : uniqSamples tx.db) (h : loadDialValue tx.db id = some v)
    (hne : v ≠ dialAvgValue tx.db id) :
    ∃ d, (runRefresh noFaults tx id).db.dials.find? (fun x => x.id == id) = some d ∧
      d.updatedAt = tx.now ∧
      samplesAt (runRefresh noFaults tx id).db id (truncMinute tx.now) =
        [⟨id, truncMinute tx.now, dialAvgValue tx.db id⟩] ∧
      truncMinute d.updatedAt = truncMinute tx.now := by
  rw [run_of_ok noFaults tx id _ _
      (refresh_of_changed noFaults tx id v rfl rfl rfl rfl rfl h hne)]
  rcases hf : tx.db.dials.find? (fun d => d.id == id) with _ | d0
  · rw [loadDialValue, hf] at h
    exact absurd h (by simp)
  · refine ⟨{ d0 with value := dialAvgValue tx.db id, updatedAt := tx.now },
      find?_changedDB tx.db id (dialAvgValue tx.db id) tx.now d0 hf, rfl, ?_, rfl⟩
    exact upsert_filter_key tx.db.dialValues id (truncMinute tx.now)
      (dialAvgValue tx.db id) (hu id (truncMinute tx.now))

/-- Witness for C8 amended: applied to the recompute of exDB at 90 s. -/
theorem single_timestamp_per_transaction_witness :
    ∃ d, (runRefresh noFaults exTx 1).db.dials.find? (fun x => x.id == 1) = some d ∧
      d.updatedAt = exTx.now ∧
      samplesAt (runRefresh noFaults exTx 1).db 1 (truncMinute exTx.now) =
        [⟨1, truncMinute exTx.now, dialAvgValue exTx.db 1⟩] ∧
      truncMinute d.updatedAt = truncMinute exTx.now :=
  single_timestamp_per_transaction exTx 1 0
    (fun i ts => by simp [samplesAt, exTx, exDB]) rfl (by decide)

end Wtf

namespace WtfHttp

/-- C10: the error-code/HTTP-status mapping round-trips: every code of the
table is recovered by FromErrorStatusCode from its ErrorStatusCode, every
code outside the table is sent to 500, and 500 maps back to EINTERNAL. -/
theorem error_code_mapping_roundtrip (c : String) :
    (c ∈ [ECONFLICT, EINVALID, ENOTFOUND, ENOTIMPLEMENTED, EUNAUTHORIZED, EINTERNAL] →
      FromErrorStatusCode (ErrorStatusCode c) = c) ∧
    (c ∉ [ECONFLICT, EINVALID, ENOTFOUND, ENOTIMPLEMENTED, EUNAUTHORIZED, EINTERNAL] →
      ErrorStatusCode c = 500 ∧ FromErrorStatusCode 500 = EINTERNAL) := by
  constructor
  · intro h
    simp only [List.mem_cons, List.not_mem_nil, or_false] at h
    rcases h with rfl | rfl | rfl | rfl | rfl | rfl <;> rfl
  · intro h
    simp only [List.mem_cons, List.not_mem_nil, or_false] at h
    push_neg at h
    obtain ⟨h1, h2, h3, h4, h5, h6⟩ := h
    refine ⟨?_, rfl⟩
    have hn : codes.find? (fun p => p.1 == c) = none := by
      rw [List.find?_eq_none]
      intro p hp
      simp only [codes, List.mem_cons, List.not_mem_nil, or_false] at hp
      rcases hp with rfl | rfl | rfl | rfl | rfl | rfl
      · intro hc
        have he : ECONFLICT = c := by simpa using hc
        exact h1 he.symm
      · intro hc
        have he : EINVALID = c := by simpa using hc
        exact h2 he.symm
      · intro hc
        have he : ENOTFOUND = c := by simpa using hc
        exact h3 he.symm
      · intro hc
        have he : ENOTIMPLEMENTED = c := by simpa using hc
        exact h4 he.symm
      · intro hc
        have he : EUNAUTHORIZED = c := by simpa using hc
        exact h5 he.symm
      · intro hc
        have he : EINTERNAL = c := by simpa using hc
        exact h6 he.symm
    unfold ErrorStatusCode
    rw [hn]

/-- Witness for C10: the conflict code round-trips through status 409, and
the unknown code no_such_code is sent to 500 and back to EINTERNAL. -/
theorem error_code_mapping_roundtrip_witness :
    FromErrorStatusCode (ErrorStatusCode ECONFLICT) = ECONFLICT ∧
    (ErrorStatusCode "no_such_code" = 500 ∧ FromErrorStatusCode 500 = EINTERNAL) :=
  ⟨(error_code_mapping_roundtrip ECONFLICT).1 (by simp),
   (error_code_mapping_roundtrip "no_such_code").2 (by decide)⟩

end WtfHttp
